import Mathlib

/-!  Shallow embedding of the ideaX backend (src/backend/full.py): GPS
simulation, the pixel-to-geo transform, mask-to-polygon extraction, the
trail and hazard aggregation performed by the frame loop, and the
set_base_location reset route.  The Python float arithmetic is modelled
exactly over ℚ; the external trigonometric call math.cos(math.radians lat)
is threaded through as a function parameter `cosr`, and the external
cv2.findContours call is modelled by passing the contour list it would
return as an input. -/

namespace IdeaX

/-- Module-level mutable state of full.py (lines 20-25): BASE_LAT,
BASE_LON, trail_points (a list of [lon, lat] pairs), landslide_polygons
(a list of rings of [lon, lat] pairs) and frame_index. -/
structure ServerState where
  baseLat : ℚ
  baseLon : ℚ
  trail_points : List (ℚ × ℚ)
  landslide_polygons : List (List (ℚ × ℚ))
  frame_index : ℕ
deriving DecidableEq

/-- State at process start (full.py lines 20-25). -/
def initState : ServerState :=
  { baseLat := 28.2134, baseLon := 85.4293, trail_points := [], landslide_polygons := [], frame_index := 0 }

/-- simulate_gps (full.py lines 28-31): adds frame_idx * 0.0000002 to each
base coordinate.  The globals BASE_LAT and BASE_LON are the state fields. -/
def simulate_gps (st : ServerState) (frame_idx : ℕ) : ℚ × ℚ :=
  (st.baseLat + frame_idx * (0.0000002 : ℚ),
   st.baseLon + frame_idx * (0.0000002 : ℚ))

/-- pixel_to_geo (full.py lines 34-41).  `cosr` stands for the library
function lat ↦ math.cos (math.radians lat); the Python default argument
meters_per_pixel = 0.2 is passed explicitly as 1/5 at every call site,
matching the source's use of the default. -/
def pixel_to_geo (cosr : ℚ → ℚ) (px py w h lat lon meters_per_pixel : ℚ) : ℚ × ℚ :=
  let dx := (px - w / 2) * meters_per_pixel
  let dy := (py - h / 2) * meters_per_pixel
  let new_lat := lat + dy / 111320
  let new_lon := lon + dx / (111320 * cosr lat)
  (new_lat, new_lon)

/-- Cyclic cross-product sum of the shoelace formula, starting from a
fixed first vertex. -/
def shoelace (first : ℤ × ℤ) : List (ℤ × ℤ) → ℤ
  | [] => 0
  | [p] => p.1 * first.2 - first.1 * p.2
  | p :: q :: rest => (p.1 * q.2 - q.1 * p.2) + shoelace first (q :: rest)

/-- Model of the library call cv2.contourArea (full.py line 54): OpenCV's
documented semantics is Green's (shoelace) formula, the absolute value of
half the cyclic cross-product sum over the contour vertices. -/
def contourArea : List (ℤ × ℤ) → ℚ
  | [] => 0
  | p :: rest => ((shoelace p (p :: rest)).natAbs : ℚ) / 2

/-- Ring-closing step of mask_to_polygons (full.py lines 63-65): when the
list is nonempty and its first point differs from its last, the first
point is appended. -/
def closeRing : List (ℚ × ℚ) → List (ℚ × ℚ)
  | [] => []
  | p0 :: rest =>
    if (p0 :: rest).getLast (List.cons_ne_nil p0 rest) ≠ p0 then
      (p0 :: rest) ++ [p0]
    else p0 :: rest

/-- Body of the contour loop of mask_to_polygons (full.py lines 57-65):
each contour vertex goes through pixel_to_geo against the reference
position, collected as [glon, glat], and the resulting list is closed. -/
def geoRing (cosr : ℚ → ℚ) (w h lat lon : ℚ) (contour : List (ℤ × ℤ)) :
    List (ℚ × ℚ) :=
  closeRing (contour.map fun pt =>
    let g := pixel_to_geo cosr (pt.1 : ℚ) (pt.2 : ℚ) w h lat lon (1 / 5)
    (g.2, g.1))

/-- Per-contour step of the mask_to_polygons loop (full.py lines 53-68):
skip the contour when its area is below 500, otherwise build the closed
geo ring and keep it when it has more than 3 points. -/
def polyStep (cosr : ℚ → ℚ) (w h lat lon : ℚ)
    (polygons : List (List (ℚ × ℚ))) (contour : List (ℤ × ℤ)) :
    List (List (ℚ × ℚ)) :=
  if contourArea contour < 500 then polygons
  else
    let geo_polygon := geoRing cosr w h lat lon contour
    if 3 < geo_polygon.length then polygons ++ [geo_polygon] else polygons

/-- mask_to_polygons (full.py lines 44-70).  cv2.findContours is external;
this takes the contour list it returns (an all-zero mask gives no
contours).  Mirrors the source: early return [] when there are no
contours, then the filtering/closing loop. -/
def mask_to_polygons (cosr : ℚ → ℚ) (contours : List (List (ℤ × ℤ)))
    (w h lat lon : ℚ) : List (List (ℚ × ℚ)) :=
  if contours = [] then []
  else contours.foldl (polyStep cosr w h lat lon) []

/-- Trail history update (full.py lines 137-138): append the new point,
then keep only the last 1500 entries (Python trail_points[-1500:], which
is List.rtake). -/
def appendTrail (trail : List (ℚ × ℚ)) (p : ℚ × ℚ) : List (ℚ × ℚ) :=
  (trail ++ [p]).rtake 1500

/-- Per-frame detection data reaching the aggregation steps of
generate_stream.  Inference (YOLO) and cv2 are external: `trailOn` lists
the on pixels (x, y) of the instance-combined trail mask (empty both when
trail_r.masks is None and when the combined mask is all zero), `slideOn`
likewise for the landslide mask, and `slideContours` is what
cv2.findContours returns on the combined landslide mask. -/
structure Frame where
  w : ℕ
  h : ℕ
  trailOn : List (ℕ × ℕ)
  slideOn : List (ℕ × ℕ)
  slideContours : List (List (ℤ × ℤ))
deriving DecidableEq

/-- State effect of one iteration of the generate_stream loop (full.py
lines 108-159): increment frame_index, simulate GPS at the new index,
append the trail centroid when the combined trail mask has an on pixel,
and replace landslide_polygons with the current frame's extraction when
the combined landslide mask has an on pixel.  Python's int(xs.mean())
truncates toward zero; for nonnegative pixel coordinates this is
natural-number division of the coordinate sum by the pixel count. -/
def processFrame (cosr : ℚ → ℚ) (st : ServerState) (fr : Frame) : ServerState :=
  let fi := st.frame_index + 1
  let gps := simulate_gps st fi
  let trail' :=
    if fr.trailOn ≠ [] then
      let cx : ℕ := (fr.trailOn.map Prod.fst).sum / fr.trailOn.length
      let cy : ℕ := (fr.trailOn.map Prod.snd).sum / fr.trailOn.length
      let g := pixel_to_geo cosr (cx : ℚ) (cy : ℚ) (fr.w : ℚ) (fr.h : ℚ) gps.1 gps.2 (1 / 5)
      appendTrail st.trail_points (g.2, g.1)
    else st.trail_points
  let polys :=
    if fr.slideOn ≠ [] then
      mask_to_polygons cosr fr.slideContours (fr.w : ℚ) (fr.h : ℚ) gps.1 gps.2
    else st.landslide_polygons
  { st with frame_index := fi, trail_points := trail', landslide_polygons := polys }

/-- set_base_location route (full.py lines 199-215).  data["lat"] and
data["lon"] raise KeyError when the field is missing, aborting the handler
at that point; Except.error carries the global state as the partially
executed handler leaves it.  On success the response body carries the
accepted pair. -/
def set_base_location (st : ServerState) (dataLat dataLon : Option ℚ) :
    Except ServerState (ServerState × ℚ × ℚ) :=
  match dataLat with
  | none => .error st
  | some la =>
    let st1 := { st with baseLat := la }
    match dataLon with
    | none => .error st1
    | some lo =>
      .ok ({ st1 with baseLon := lo, trail_points := [], landslide_polygons := [], frame_index := 0 }, la, lo)

/-- Concrete cosine model used at witness inputs. -/
def cosOne : ℚ → ℚ := fun _ => 1

/-- Concrete states and frames used at witness and counterexample inputs. -/
def stZero : ServerState := ⟨0, 0, [], [], 0⟩

def oneRing : List (ℚ × ℚ) := [(0, 0), (1, 0), (0, 1), (0, 0)]

def stWithHazard : ServerState := ⟨0, 0, [], [oneRing], 0⟩

def frEmpty : Frame := ⟨640, 360, [], [], []⟩

def frTwoPixels : Frame := ⟨4, 4, [(0, 0), (1, 0)], [], []⟩

/-- Contour of a filled 51 × 41 pixel rectangle, cv2 shoelace area 2000. -/
def rectBig : List (ℤ × ℤ) := [(0, 0), (50, 0), (50, 40), (0, 40)]

/-- Contour of a filled 26 × 21 pixel rectangle, cv2 shoelace area exactly 500. -/
def rect500 : List (ℤ × ℤ) := [(0, 0), (25, 0), (25, 20), (0, 20)]

def frSlide : Frame := ⟨100, 100, [], [(3, 3)], [rectBig]⟩

/-- Geo ring that mask_to_polygons produces from rectBig in a 100 × 100
frame at reference position (0, 0) with cosr = cosOne. -/
def ringBig : List (ℚ × ℚ) :=
  [(-1/11132, -1/11132), (0, -1/11132), (0, -1/55660), (-1/11132, -1/55660),
   (-1/11132, -1/11132)]

/-- Unfolded form of simulate_gps with the drift constant written as the
fraction 2/10^7. -/
theorem simulate_gps_eq (st : ServerState) (n : ℕ) :
    simulate_gps st n = (st.baseLat + n * (2 / 10 ^ 7), st.baseLon + n * (2 / 10 ^ 7)) := by
  rw [simulate_gps]
  norm_num

/-- C9: for every frame index n (including n = 0) and every base position,
simulate_gps returns latitude base.lat + n·k and longitude base.lon + n·k
with k = 2e-7, exactly and deterministically. -/
theorem simulate_gps_drift (st : ServerState) (n : ℕ) :
    simulate_gps st n = (st.baseLat + n * (2 / 10 ^ 7), st.baseLon + n * (2 / 10 ^ 7)) :=
  simulate_gps_eq st n

/-- C10: pixel_to_geo applies the equirectangular formula unconditionally —
no guard excludes any reference latitude, in particular not the degenerate
±90° case where the real-valued divisor 111320·cos(radians lat) is zero —
and whenever that divisor is nonzero the longitude division is
well-defined: the computed offset satisfies the defining equation of
division. -/
theorem pixel_to_geo_total (cosr : ℚ → ℚ) (px py w h lat lon mpp : ℚ) :
    pixel_to_geo cosr px py w h lat lon mpp
      = (lat + ((py - h / 2) * mpp) / 111320,
         lon + ((px - w / 2) * mpp) / (111320 * cosr lat))
    ∧ (111320 * cosr lat ≠ 0 →
        ((pixel_to_geo cosr px py w h lat lon mpp).2 - lon) * (111320 * cosr lat)
          = (px - w / 2) * mpp) := by
  constructor
  · rfl
  · intro hc
    have h2 : (pixel_to_geo cosr px py w h lat lon mpp).2
        = lon + ((px - w / 2) * mpp) / (111320 * cosr lat) := rfl
    rw [h2, add_sub_cancel_left, div_mul_cancel₀ _ hc]

/-- Closed instance of pixel_to_geo_total at a concrete input with a
nonzero divisor. -/
theorem pixel_to_geo_total_witness :
    pixel_to_geo cosOne 7 3 10 10 0 0 (1 / 5)
      = (0 + ((3 - 10 / 2) * (1 / 5)) / 111320,
         0 + ((7 - 10 / 2) * (1 / 5)) / (111320 * cosOne 0))
    ∧ ((pixel_to_geo cosOne 7 3 10 10 0 0 (1 / 5)).2 - 0) * (111320 * cosOne 0)
        = (7 - 10 / 2) * (1 / 5) :=
  ⟨(pixel_to_geo_total cosOne 7 3 10 10 0 0 (1 / 5)).1,
   (pixel_to_geo_total cosOne 7 3 10 10 0 0 (1 / 5)).2 (by norm_num [cosOne])⟩

/-- C1: after set_base_location succeeds with both coordinates present,
the base position is (lat, lon), the trail history and the hazard
collection are empty, the frame counter is 0, and every subsequent
simulated position is computed from the new base — for every prior state,
whatever trail and hazard contents it held. -/
theorem reset_success_state (st : ServerState) (la lo : ℚ) :
    ∃ st', set_base_location st (some la) (some lo) = .ok (st', la, lo)
      ∧ st'.baseLat = la ∧ st'.baseLon = lo
      ∧ st'.trail_points = [] ∧ st'.landslide_polygons = [] ∧ st'.frame_index = 0
      ∧ ∀ n : ℕ, simulate_gps st' n = (la + n * (2 / 10 ^ 7), lo + n * (2 / 10 ^ 7)) :=
  ⟨_, rfl, rfl, rfl, rfl, rfl, rfl, fun n => simulate_gps_eq _ n⟩

/-- C2: failing input for the claim — a reset request that carries lat but
is missing lon fails only after BASE_LAT has been assigned: the handler
stops with the base latitude already set to the new value, so the prior
state is not left entirely unchanged (while a request missing lat does
leave the state untouched). -/
theorem reset_missing_lon_mutates_base :
    set_base_location initState (some 10) none
        = .error { initState with baseLat := 10 }
      ∧ ({ initState with baseLat := 10 } : ServerState).baseLat ≠ initState.baseLat
      ∧ set_base_location initState none none = .error initState := by
  refine ⟨rfl, ?_, rfl⟩
  norm_num [initState]

/-- C7: a frame on which a class produced no mask, or a combined mask with
zero on pixels, performs no update for that class's aggregate: the trail
history is unchanged when the trail mask is empty and the hazard
collection is unchanged when the landslide mask is empty (processFrame is
a total function, so no error is raised). -/
theorem empty_detection_skips (cosr : ℚ → ℚ) (st : ServerState) (fr : Frame) :
    (fr.trailOn = [] → (processFrame cosr st fr).trail_points = st.trail_points)
    ∧ (fr.slideOn = [] → (processFrame cosr st fr).landslide_polygons
          = st.landslide_polygons) := by
  constructor <;> intro h9 <;> simp [processFrame, h9]

/-- Closed instance of empty_detection_skips on a frame with no detections
and a state holding prior data. -/
theorem empty_detection_skips_witness :
    (processFrame cosOne stWithHazard frEmpty).trail_points = stWithHazard.trail_points
    ∧ (processFrame cosOne stWithHazard frEmpty).landslide_polygons
        = stWithHazard.landslide_polygons :=
  ⟨(empty_detection_skips cosOne stWithHazard frEmpty).1 rfl,
   (empty_detection_skips cosOne stWithHazard frEmpty).2 rfl⟩

/-- C4 (amended): on every processed frame whose combined landslide mask
has at least one on pixel, the hazard collection is assigned exactly the
polygon list extracted from that frame's mask against that frame's
simulated position, discarding all prior polygons. -/
theorem hazard_replace_on_detection (cosr : ℚ → ℚ) (st : ServerState) (fr : Frame)
    (h : fr.slideOn ≠ []) :
    (processFrame cosr st fr).landslide_polygons
      = mask_to_polygons cosr fr.slideContours (fr.w : ℚ) (fr.h : ℚ)
          (simulate_gps st (st.frame_index + 1)).1
          (simulate_gps st (st.frame_index + 1)).2 := by
  simp [processFrame, h]

/-- Closed instance of hazard_replace_on_detection: a frame with one
landslide pixel replaces the collection with its own extraction. -/
theorem hazard_replace_on_detection_witness :
    (processFrame cosOne initState frSlide).landslide_polygons
      = mask_to_polygons cosOne frSlide.slideContours (frSlide.w : ℚ) (frSlide.h : ℚ)
          (simulate_gps initState 1).1 (simulate_gps initState 1).2 :=
  hazard_replace_on_detection cosOne initState frSlide (by decide)

/-- C4 counterexample: on a processed frame whose combined landslide mask
has no on pixel, the hazard collection is not assigned that frame's
(empty) polygon list — the prior polygon survives the frame. -/
theorem hazard_kept_on_empty_frame :
    (processFrame cosOne stWithHazard frEmpty).landslide_polygons
      ≠ mask_to_polygons cosOne frEmpty.slideContours (frEmpty.w : ℚ) (frEmpty.h : ℚ)
          (simulate_gps stWithHazard 1).1 (simulate_gps stWithHazard 1).2 := by
  simp [processFrame, mask_to_polygons, stWithHazard, frEmpty, oneRing]

/-- Appending one element to a history already truncated to its last n
elements and truncating again is the same as truncating the untruncated
history after the append. -/
theorem rtake_append_singleton_rtake {α : Type} (n : ℕ) (l : List α) (p : α) :
    ((l.rtake n) ++ [p]).rtake n = (l ++ [p]).rtake n := by
  cases n with
  | zero => simp [List.rtake]
  | succ m =>
    rw [List.rtake_eq_reverse_take_reverse, List.rtake_eq_reverse_take_reverse,
      List.rtake_eq_reverse_take_reverse]
    simp [List.take_take, Nat.min_eq_left (Nat.le_succ m)]

/-- Folding appendTrail from a truncated history computes the truncation
of the full concatenated history. -/
theorem foldl_appendTrail_eq (ps : List (ℚ × ℚ)) :
    ∀ l : List (ℚ × ℚ), ps.foldl appendTrail (l.rtake 1500) = (l ++ ps).rtake 1500 := by
  induction ps with
  | nil => intro l; simp
  | cons p ps ih =>
    intro l
    calc (p :: ps).foldl appendTrail (l.rtake 1500)
        = ps.foldl appendTrail (appendTrail (l.rtake 1500) p) := List.foldl_cons _ _
      _ = ps.foldl appendTrail ((l ++ [p]).rtake 1500) := by
          rw [appendTrail, rtake_append_singleton_rtake]
      _ = ((l ++ [p] ++ ps).rtake 1500) := ih (l ++ [p])
      _ = ((l ++ p :: ps).rtake 1500) := by simp

/-- C3: for every sequence of appended trail points, starting from the
empty trail, the trail history never exceeds the capacity 1500, and the
retained points are exactly the most recently appended ones in their
original append order — the list with all but the last 1500 points
dropped from the front (FIFO eviction). -/
theorem trail_capacity_fifo (ps : List (ℚ × ℚ)) :
    (ps.foldl appendTrail []).length ≤ 1500
    ∧ ps.foldl appendTrail [] = ps.drop (ps.length - 1500) := by
  have h : ps.foldl appendTrail [] = ps.rtake 1500 := by
    have h0 := foldl_appendTrail_eq ps []
    simpa using h0
  refine ⟨?_, ?_⟩
  · rw [h, List.rtake]
    simp only [List.length_drop]
    omega
  · rw [h, List.rtake]

/-- C8 (amended): on every frame whose combined trail mask has at least
one on pixel, exactly one point is appended to the trail history (with
front eviction past capacity): the pixel_to_geo transform, taken against
that frame's simulated position as reference, of the truncated centroid —
the floor of the arithmetic mean of the x coordinates and of the y
coordinates of the on pixels, as computed by Python's int(xs.mean()). -/
theorem trail_appends_truncated_centroid (cosr : ℚ → ℚ) (st : ServerState) (fr : Frame)
    (h : fr.trailOn ≠ []) :
    (processFrame cosr st fr).trail_points
      = appendTrail st.trail_points
          (let gps := simulate_gps st (st.frame_index + 1)
           let cx : ℕ := ⌊((fr.trailOn.map Prod.fst).sum : ℚ) / (fr.trailOn.length : ℚ)⌋₊
           let cy : ℕ := ⌊((fr.trailOn.map Prod.snd).sum : ℚ) / (fr.trailOn.length : ℚ)⌋₊
           let g := pixel_to_geo cosr (cx : ℚ) (cy : ℚ) (fr.w : ℚ) (fr.h : ℚ)
             gps.1 gps.2 (1 / 5)
           (g.2, g.1)) := by
  simp only [Nat.floor_div_eq_div]
  simp [processFrame, h]

/-- Closed instance of trail_appends_truncated_centroid on a two-pixel
trail mask. -/
theorem trail_appends_truncated_centroid_witness :
    (processFrame cosOne stZero frTwoPixels).trail_points
      = appendTrail stZero.trail_points
          (let gps := simulate_gps stZero (stZero.frame_index + 1)
           let cx : ℕ :=
             ⌊((frTwoPixels.trailOn.map Prod.fst).sum : ℚ) / (frTwoPixels.trailOn.length : ℚ)⌋₊
           let cy : ℕ :=
             ⌊((frTwoPixels.trailOn.map Prod.snd).sum : ℚ) / (frTwoPixels.trailOn.length : ℚ)⌋₊
           let g := pixel_to_geo cosOne (cx : ℚ) (cy : ℚ) (frTwoPixels.w : ℚ)
             (frTwoPixels.h : ℚ) gps.1 gps.2 (1 / 5)
           (g.2, g.1)) :=
  trail_appends_truncated_centroid cosOne stZero frTwoPixels (by decide)

/-- C8 counterexample: with on pixels at x-coordinates 0 and 1 the point
the code appends is the transform of the truncated centroid x = 0, not of
the exact arithmetic-mean centroid x = 1/2 — the trail after the frame
differs from the one the claim prescribes. -/
theorem trail_point_not_exact_centroid :
    (processFrame cosOne stZero frTwoPixels).trail_points
      ≠ [((pixel_to_geo cosOne (1 / 2) 0 (4 : ℚ) (4 : ℚ)
            (simulate_gps stZero 1).1 (simulate_gps stZero 1).2 (1 / 5)).2,
          (pixel_to_geo cosOne (1 / 2) 0 (4 : ℚ) (4 : ℚ)
            (simulate_gps stZero 1).1 (simulate_gps stZero 1).2 (1 / 5)).1)] := by
  have hL : (processFrame cosOne stZero frTwoPixels).trail_points
      = [(-(47217 / 13915000000 : ℚ), -(47217 / 13915000000 : ℚ))] := by
    norm_num [processFrame, simulate_gps, pixel_to_geo, appendTrail, cosOne, stZero,
      frTwoPixels, List.rtake]
    decide
  rw [hL]
  norm_num [pixel_to_geo, simulate_gps, cosOne, stZero]

/-- Whatever list closeRing produces, its first and last entries agree. -/
theorem closeRing_head_eq_getLast (l : List (ℚ × ℚ)) :
    (closeRing l).head? = (closeRing l).getLast? := by
  cases l with
  | nil => rfl
  | cons p0 rest =>
    rw [closeRing]
    split
    · rw [List.getLast?_concat, List.cons_append]
      rfl
    · rename_i hcond
      push_neg at hcond
      rw [List.getLast?_eq_getLast_of_ne_nil (List.cons_ne_nil p0 rest), hcond]
      rfl

/-- Every element reachable by folding polyStep either was in the
accumulator or is the closed geo ring of some input contour that passed
the area and length checks. -/
theorem mem_foldl_polyStep (cosr : ℚ → ℚ) (w h lat lon : ℚ) :
    ∀ (ctrs : List (List (ℤ × ℤ))) (acc : List (List (ℚ × ℚ))) (p : List (ℚ × ℚ)),
      p ∈ ctrs.foldl (polyStep cosr w h lat lon) acc →
      p ∈ acc ∨ ∃ c ∈ ctrs, ¬ contourArea c < 500 ∧ p = geoRing cosr w h lat lon c
        ∧ 3 < p.length := by
  intro ctrs
  induction ctrs with
  | nil => intro acc p hp; exact .inl hp
  | cons c cs ih =>
    intro acc p hp
    rw [List.foldl_cons] at hp
    rcases ih (polyStep cosr w h lat lon acc c) p hp with h2 | ⟨c', hc', h3⟩
    · rw [polyStep] at h2
      split at h2
      · exact .inl h2
      · rename_i harea
        dsimp only at h2
        split at h2
        · rename_i hlen
          rcases List.mem_append.1 h2 with h4 | h4
          · exact .inl h4
          · have h5 : p = geoRing cosr w h lat lon c := by simpa using h4
            exact .inr ⟨c, by simp, harea, h5, h5 ▸ hlen⟩
        · exact .inl h2
    · exact .inr ⟨c', by simp [hc'], h3⟩

/-- Every polygon returned by mask_to_polygons is the closed geo ring of
an input contour that passed the area and length checks. -/
theorem mask_to_polygons_mem (cosr : ℚ → ℚ) (ctrs : List (List (ℤ × ℤ))) (w h lat lon : ℚ)
    (p : List (ℚ × ℚ)) (hp : p ∈ mask_to_polygons cosr ctrs w h lat lon) :
    ∃ c ∈ ctrs, ¬ contourArea c < 500 ∧ p = geoRing cosr w h lat lon c ∧ 3 < p.length := by
  rw [mask_to_polygons] at hp
  split at hp
  · simp at hp
  · rcases mem_foldl_polyStep cosr w h lat lon ctrs [] p hp with h | h
    · simp at h
    · exact h

/-- Contours below the area threshold contribute nothing to the fold. -/
theorem foldl_polyStep_filter (cosr : ℚ → ℚ) (w h lat lon : ℚ) :
    ∀ (ctrs : List (List (ℤ × ℤ))) (acc : List (List (ℚ × ℚ))),
      (ctrs.filter fun c => 500 ≤ contourArea c).foldl (polyStep cosr w h lat lon) acc
        = ctrs.foldl (polyStep cosr w h lat lon) acc := by
  intro ctrs
  induction ctrs with
  | nil => intro acc; rfl
  | cons c cs ih =>
    intro acc
    by_cases hc : 500 ≤ contourArea c
    · rw [List.filter_cons_of_pos (by simpa using hc), List.foldl_cons, List.foldl_cons]
      exact ih _
    · rw [List.filter_cons_of_neg (by simpa using hc), List.foldl_cons]
      have h6 : polyStep cosr w h lat lon acc c = acc := by
        rw [polyStep, if_pos (not_le.mp hc)]
      rw [h6]
      exact ih acc

/-- C6: for every input, every polygon returned by mask_to_polygons is a
closed ring — its first point equals its last point — with at least 4
points, and an empty contour set (what cv2.findContours yields on an
all-zero mask) produces the empty sequence rather than an error. -/
theorem polygons_closed_rings (cosr : ℚ → ℚ) (ctrs : List (List (ℤ × ℤ))) (w h lat lon : ℚ) :
    (∀ p ∈ mask_to_polygons cosr ctrs w h lat lon, p.head? = p.getLast? ∧ 4 ≤ p.length)
    ∧ mask_to_polygons cosr [] w h lat lon = [] := by
  refine ⟨fun p hp => ?_, rfl⟩
  obtain ⟨c, _hc, _ha, hpe, hlen⟩ := mask_to_polygons_mem cosr ctrs w h lat lon p hp
  refine ⟨?_, by omega⟩
  rw [hpe, geoRing]
  exact closeRing_head_eq_getLast _

/-- Closed instance of polygons_closed_rings on the polygon extracted from
rectBig. -/
theorem polygons_closed_rings_witness :
    ringBig.head? = ringBig.getLast? ∧ 4 ≤ ringBig.length :=
  (polygons_closed_rings cosOne [rectBig] 100 100 0 0).1 ringBig
    (by norm_num [mask_to_polygons, polyStep, geoRing, closeRing, pixel_to_geo,
      contourArea, shoelace, cosOne, rectBig, ringBig])

/-- C5 (amended): mask_to_polygons discards every contour whose enclosed
pixel area is below the 500 px² noise threshold — removing those contours
from the input leaves the output unchanged — and every polygon it returns
is derived from a contour whose pixel area is at least 500 px² (not
strictly above it: the code discards only areas strictly below the
threshold, so a contour of area exactly 500 px² is kept). -/
theorem polygons_area_threshold (cosr : ℚ → ℚ) (ctrs : List (List (ℤ × ℤ))) (w h lat lon : ℚ) :
    mask_to_polygons cosr (ctrs.filter fun c => 500 ≤ contourArea c) w h lat lon
      = mask_to_polygons cosr ctrs w h lat lon
    ∧ ∀ p ∈ mask_to_polygons cosr ctrs w h lat lon,
        ∃ c ∈ ctrs, 500 ≤ contourArea c ∧ p = geoRing cosr w h lat lon c := by
  constructor
  · by_cases h0 : ctrs = []
    · subst h0; rfl
    · rw [mask_to_polygons, mask_to_polygons, if_neg h0]
      by_cases h1 : ctrs.filter (fun c => 500 ≤ contourArea c) = []
      · rw [if_pos h1, ← foldl_polyStep_filter cosr w h lat lon ctrs [], h1, List.foldl_nil]
      · rw [if_neg h1, foldl_polyStep_filter]
  · intro p hp
    obtain ⟨c, hc, ha, hpe, _⟩ := mask_to_polygons_mem cosr ctrs w h lat lon p hp
    exact ⟨c, hc, not_lt.mp ha, hpe⟩

/-- Closed instance of polygons_area_threshold: the polygon extracted from
rectBig comes from a contour of area at least 500 px². -/
theorem polygons_area_threshold_witness :
    ∃ c ∈ [rectBig], 500 ≤ contourArea c ∧ ringBig = geoRing cosOne 100 100 0 0 c :=
  (polygons_area_threshold cosOne [rectBig] 100 100 0 0).2 ringBig
    (by norm_num [mask_to_polygons, polyStep, geoRing, closeRing, pixel_to_geo,
      contourArea, shoelace, cosOne, rectBig, ringBig])

/-- C5 counterexample: mask_to_polygons keeps a contour of pixel area
exactly 500 px² — an area that does not exceed the 500 px² threshold —
and returns the polygon derived from it, because the code discards only
contours whose area is strictly below the threshold. -/
theorem polygons_keep_area_500 :
    contourArea rect500 = 500
    ∧ (mask_to_polygons cosOne [rect500] 100 100 0 0).length = 1 := by
  constructor
  · norm_num [contourArea, shoelace, rect500]
  · norm_num [mask_to_polygons, polyStep, geoRing, closeRing, pixel_to_geo, contourArea,
      shoelace, cosOne, rect500]

end IdeaX
